import Mathlib

/-!
# Verification of the hyli-org/orderbook matching engine and rollup executor

This development is a shallow embedding of the order-matching contract
(`contracts/orderbook/src/lib.rs`), its indexer candle query
(`contracts/orderbook/src/indexer.rs`) and the rollup executor's
transactional blob execution (`server/src/rollup_executor.rs`).

Conventions of the embedding:
* Rust `HashMap`s are modelled as association lists (`List (k × v)`);
  `lookupA` is `get`, `insertA` is `insert` (replacing in place), `removeA`
  is `remove`.  The list order doubles as the map's iteration order, which in
  Rust is arbitrary; functions whose output depends on iteration order are
  parameterized by an explicit enumeration choice.
* Rust `u32` values are modelled as `Nat`.  The contract's arithmetic
  (`+`, `-`, `*`) would panic or wrap on `u32` overflow; all claims below are
  settled on inputs far from `2^32` where `u32` and `Nat` agree.  Subtraction
  only occurs guarded by an explicit `<` check in the source, mirrored here.
* Functions that mutate `&mut self` in Rust are state-passing here and return
  the post-state together with the `Result`, so that the state left behind by
  a failing call is observable (the source returns `Err` through `?` after
  in-place mutations).
* Rust panics (calls to `unwrap`/`expect` on stored orders) are modelled as
  `Except.error` with a message starting with `panic:`; these paths are only
  reachable from states whose queues contain dangling order ids.
-/

namespace OB

/-- Association-list lookup, mirroring `HashMap::get`. -/
def lookupA {k v : Type} [DecidableEq k] : List (k × v) → k → Option v
  | [], _ => none
  | (a, b) :: rest, key => if a = key then some b else lookupA rest key

/-- Association-list insert, mirroring `HashMap::insert`: replaces the value
of an existing key in place, appends a new key at the end. -/
def insertA {k v : Type} [DecidableEq k] : List (k × v) → k → v → List (k × v)
  | [], key, val => [(key, val)]
  | (a, b) :: rest, key, val =>
    if a = key then (a, val) :: rest else (a, b) :: insertA rest key val

/-- Association-list removal, mirroring `HashMap::remove`. -/
def removeA {k v : Type} [DecidableEq k] : List (k × v) → k → List (k × v)
  | [], _ => []
  | (a, b) :: rest, key => if a = key then rest else (a, b) :: removeA rest key

/-- `OrderType` from lib.rs. -/
inductive OrderType
  | Buy
  | Sell
deriving DecidableEq, Repr

/-- `Order` from lib.rs.  `timestamp` is `TimestampMs` (u128 milliseconds). -/
structure Order where
  owner : String
  order_id : String
  order_type : OrderType
  price : Option Nat
  pair : String × String
  quantity : Nat
  timestamp : Nat
deriving DecidableEq, Repr

/-- `OrderbookEvent` from lib.rs. -/
inductive OrderbookEvent
  | OrderCreated (order : Order)
  | OrderCancelled (order_id : String) (pair : String × String)
  | OrderExecuted (order_id : String) (pair : String × String)
  | OrderUpdate (order_id : String) (remaining_quantity : Nat) (pair : String × String)
  | BalanceUpdated (user : String) (token : String) (amount : Nat)
deriving DecidableEq, Repr

/-- `OrderbookAction` from lib.rs. -/
inductive OrderbookAction
  | CreateOrder (order_id : String) (order_type : OrderType) (price : Option Nat)
      (pair : String × String) (quantity : Nat)
  | Cancel (order_id : String)
  | Deposit (token : String) (amount : Nat)
  | Withdraw (token : String) (amount : Nat)
deriving DecidableEq, Repr

/-- The two-level user → token → u32 map used for `balances` and (with
block heights as values) `latest_deposit`. -/
abbrev Balances := List (String × List (String × Nat))

/-- The relevant fields of `sdk::TxContext`. -/
structure TxContext where
  lane_id : String
  block_height : Nat
  timestamp : Nat
deriving DecidableEq, Repr

/-- `Orderbook` state from lib.rs. -/
structure Orderbook where
  lane_id : String
  balances : Balances
  latest_deposit : Balances
  orders : List (String × Order)
  buy_orders : List ((String × String) × List String)
  sell_orders : List ((String × String) × List String)
  orders_history : List ((String × String) × List (Nat × Nat))
  accepted_tokens : List String
deriving DecidableEq, Repr

/-- Pure read of a two-level balance with the `or_default` 0. -/
def getBal (b : Balances) (user token : String) : Nat :=
  (lookupA ((lookupA b user).getD []) token).getD 0

/-- The side effect of `get_balance_mut`: `entry(user).or_default()` followed
by `entry(token).or_default()` inserts zero-valued entries for missing keys. -/
def ensureBal (b : Balances) (user token : String) : Balances :=
  let m := (lookupA b user).getD []
  let m2 := match lookupA m token with
    | some _ => m
    | none => m ++ [(token, 0)]
  insertA b user m2

/-- `get_balance_mut` followed by writing `val`: ensures both levels exist and
stores `val`. -/
def setBal (b : Balances) (user token : String) (val : Nat) : Balances :=
  let m := (lookupA b user).getD []
  insertA b user (insertA m token val)

/-- `Orderbook::transfer_tokens`.  Fails (without touching the map) when the
sender or the sender's token entry is missing or the balance is too small;
otherwise decrements the sender and credits the receiver, lazily creating the
receiver's entries. -/
def transferTokens (b : Balances) (src dst token : String) (amount : Nat) :
    Except String Balances :=
  match lookupA b src with
  | none => .error ("User " ++ src ++ " not found")
  | some m =>
    match lookupA m token with
    | none => .error ("Token " ++ token ++ " not found for user " ++ src)
    | some bal =>
      if bal < amount then
        .error ("Could not transfer: Insufficient balance of user " ++ src)
      else
        let b1 := insertA b src (insertA m token (bal - amount))
        let m2 := (lookupA b1 dst).getD []
        let toBal := (lookupA m2 token).getD 0
        .ok (insertA b1 dst (insertA m2 token (toBal + amount)))

/-- `Orderbook::deposit`. -/
def deposit (ob : Orderbook) (token : String) (amount : Nat) (user : String)
    (ctx : TxContext) : Except String (List OrderbookEvent) × Orderbook :=
  let newBal := getBal ob.balances user token + amount
  let b := setBal ob.balances user token newBal
  let ld := setBal ob.latest_deposit user token ctx.block_height
  (.ok [.BalanceUpdated user token newBal],
   { ob with balances := b, latest_deposit := ld })

/-- `Orderbook::withdraw`.  Note that the failing branch has already run
`get_balance_mut`, so the zero-valued lazy entries remain in the state. -/
def withdraw (ob : Orderbook) (token : String) (amount : Nat) (user : String) :
    Except String (List OrderbookEvent) × Orderbook :=
  let b := ensureBal ob.balances user token
  let bal := getBal b user token
  if bal < amount then
    (.error ("Could not withdraw: Insufficient balance: user " ++ user),
     { ob with balances := b })
  else
    (.ok [.BalanceUpdated user token (bal - amount)],
     { ob with balances := setBal b user token (bal - amount) })

/-- Remove an order id from the queue stored for `pair`, if that queue
exists (`get_mut` + `retain`). -/
def removeFromQueue (qs : List ((String × String) × List String))
    (pair : String × String) (oid : String) :
    List ((String × String) × List String) :=
  match lookupA qs pair with
  | none => qs
  | some q => insertA qs pair (q.filter (fun i => i ≠ oid))

/-- `Orderbook::cancel_order`.  The refunded amount is `order.quantity` of the
required token for BOTH order types (this is the source's behaviour; for a Buy
order the reservation was `quantity * price`). -/
def cancelOrder (ob : Orderbook) (order_id user : String) :
    Except String (List OrderbookEvent) × Orderbook :=
  match lookupA ob.orders order_id with
  | none => (.error ("Order " ++ order_id ++ " not found"), ob)
  | some order =>
    if order.owner ≠ user then
      (.error ("User " ++ user ++ " is not the owner of order " ++ order_id), ob)
    else
      let requiredToken := match order.order_type with
        | .Buy => order.pair.2
        | .Sell => order.pair.1
      match transferTokens ob.balances "orderbook" order.owner requiredToken
          order.quantity with
      | .error e => (.error e, ob)
      | .ok b =>
        let orders2 := removeA ob.orders order_id
        let ob2 := match order.order_type with
          | .Buy =>
            { ob with
              balances := b
              orders := orders2
              buy_orders := removeFromQueue ob.buy_orders order.pair order_id }
          | .Sell =>
            { ob with
              balances := b
              orders := orders2
              sell_orders := removeFromQueue ob.sell_orders order.pair order_id }
        let bal := getBal ob2.balances order.owner requiredToken
        let ob3 := { ob2 with
          balances := ensureBal ob2.balances order.owner requiredToken }
        (.ok [.OrderCancelled order_id order.pair,
              .BalanceUpdated order.owner requiredToken bal], ob3)

/-- Record a trade in `orders_history` (`entry(pair).or_default().insert(...)`).
The key is the INCOMING order's timestamp; the value is the resting price. -/
def recordTrade (hm : List ((String × String) × List (Nat × Nat)))
    (pair : String × String) (ts price : Nat) :
    List ((String × String) × List (Nat × Nat)) :=
  let h := (lookupA hm pair).getD []
  insertA hm pair (insertA h ts price)

/-- The mutable loop variables of `execute_order`'s matching loop: the full
`orders` map, the full `orders_history` map, the deferred settlement
transfers, the emitted events, and `order_to_insert`. -/
structure MatchState where
  orders : List (String × Order)
  histMap : List ((String × String) × List (Nat × Nat))
  transfers : List (String × String × String × Nat)
  events : List OrderbookEvent
  residual : Option Order
deriving DecidableEq, Repr

/-- The `while let Some(order_id) = sell_orders.pop_front()` loop of
`execute_order` for an incoming Buy order.  Returns the loop state and the
remaining sell queue.  The source's `unwrap`/`expect` panics on dangling ids
are modelled as `panic:` errors (these also abandon the in-place mutations of
earlier iterations, which the source would keep; no theorem below depends on
the state left by such a panic). -/
def matchLoopBuy (user : String) (order : Order) (st : MatchState) :
    List String → Except String (MatchState × List String)
  | [] => .ok (st, [])
  | oid :: rest =>
    match lookupA st.orders oid with
    | none => .error ("Order " ++ oid ++ " not found")
    | some existing =>
      match existing.price with
      | none => .error "panic: an order has been stored without a price limit"
      | some ep =>
        if (match order.price with | some p => decide (ep > p) | none => false) then
          .ok ({ st with residual := some order }, oid :: rest)
        else
          let st1 := { st with
            histMap := recordTrade st.histMap order.pair order.timestamp ep }
          if existing.quantity > order.quantity then
            let ex2 := { existing with quantity := existing.quantity - order.quantity }
            .ok ({ st1 with
                orders := insertA st1.orders oid ex2
                events := st1.events ++
                  [.OrderUpdate existing.order_id ex2.quantity order.pair]
                transfers := st1.transfers ++
                  [(user, existing.owner, order.pair.2, ep * order.quantity),
                   ("orderbook", user, order.pair.1, order.quantity)] },
              oid :: rest)
          else if existing.quantity = order.quantity then
            .ok ({ st1 with
                orders := removeA st1.orders oid
                events := st1.events ++
                  [.OrderExecuted oid order.pair,
                   .OrderExecuted order.order_id order.pair]
                transfers := st1.transfers ++
                  [(user, existing.owner, order.pair.2, ep * existing.quantity),
                   ("orderbook", user, order.pair.1, existing.quantity)] },
              rest)
          else
            let order2 := { order with quantity := order.quantity - existing.quantity }
            matchLoopBuy user order2
              { st1 with
                orders := removeA st1.orders oid
                events := st1.events ++ [.OrderExecuted existing.order_id order.pair]
                transfers := st1.transfers ++
                  [(user, existing.owner, order.pair.2, ep * existing.quantity),
                   ("orderbook", user, order.pair.1, existing.quantity)]
                residual := some order2 } rest

/-- The matching loop of `execute_order` for an incoming Sell order
(dequeuing from `buy_orders`). -/
def matchLoopSell (user : String) (order : Order) (st : MatchState) :
    List String → Except String (MatchState × List String)
  | [] => .ok (st, [])
  | oid :: rest =>
    match lookupA st.orders oid with
    | none => .error ("Order " ++ oid ++ " not found")
    | some existing =>
      match existing.price with
      | none => .error "panic: an order has been stored without a price limit"
      | some ep =>
        if (match order.price with | some p => decide (ep < p) | none => false) then
          .ok ({ st with residual := some order }, oid :: rest)
        else
          let st1 := { st with
            histMap := recordTrade st.histMap order.pair order.timestamp ep }
          if existing.quantity > order.quantity then
            let ex2 := { existing with quantity := existing.quantity - order.quantity }
            .ok ({ st1 with
                orders := insertA st1.orders oid ex2
                events := st1.events ++
                  [.OrderUpdate existing.order_id ex2.quantity order.pair]
                transfers := st1.transfers ++
                  [(user, existing.owner, order.pair.1, order.quantity),
                   ("orderbook", user, order.pair.2, ep * order.quantity)] },
              oid :: rest)
          else if existing.quantity = order.quantity then
            .ok ({ st1 with
                orders := removeA st1.orders oid
                events := st1.events ++ [.OrderExecuted existing.order_id order.pair]
                transfers := st1.transfers ++
                  [(user, existing.owner, order.pair.1, existing.quantity),
                   ("orderbook", user, order.pair.2, ep * existing.quantity)] },
              rest)
          else
            let order2 := { order with quantity := order.quantity - existing.quantity }
            matchLoopSell user order2
              { st1 with
                orders := removeA st1.orders oid
                events := st1.events ++ [.OrderExecuted existing.order_id order.pair]
                transfers := st1.transfers ++
                  [(user, existing.owner, order.pair.1, existing.quantity),
                   ("orderbook", user, order.pair.2, ep * existing.quantity)]
                residual := some order2 } rest

/-- The scan inside `Orderbook::insert_order`: find the first queue position
whose order has a strictly worse price and insert there (at the end if none).
The source `unwrap`s the `orders` lookup of every scanned id. -/
def insertSorted (orders : List (String × Order)) (ot : OrderType) (price : Nat)
    (oid : String) : List String → Except String (List String)
  | [] => .ok [oid]
  | i :: rest =>
    match lookupA orders i with
    | none => .error "panic: order in queue not found"
    | some other =>
      let goesBefore : Bool := match ot with
        | .Buy => decide (other.price.getD 0 < price)
        | .Sell => decide (other.price.getD 0 > price)
      if goesBefore then .ok (oid :: i :: rest)
      else do
        let r ← insertSorted orders ot price oid rest
        pure (i :: r)

/-- `Orderbook::insert_order`.  Only called on limit orders; rejects zero
prices; inserts at the position preserving the price ordering. -/
def insertOrder (ob : Orderbook) (order : Order) : Except String Orderbook :=
  match order.price with
  | none => .error "panic: insert_order called on a market order"
  | some price =>
    if price = 0 then .error "Price cannot be zero"
    else
      match order.order_type with
      | .Buy => do
        let q := (lookupA ob.buy_orders order.pair).getD []
        let q2 ← insertSorted ob.orders .Buy price order.order_id q
        pure { ob with
          buy_orders := insertA ob.buy_orders order.pair q2
          orders := insertA ob.orders order.order_id order }
      | .Sell => do
        let q := (lookupA ob.sell_orders order.pair).getD []
        let q2 ← insertSorted ob.orders .Sell price order.order_id q
        pure { ob with
          sell_orders := insertA ob.sell_orders order.pair q2
          orders := insertA ob.orders order.order_id order }

/-- Append an element to a `HashSet`-like list if absent. -/
def setAdd (l : List String) (x : String) : List String :=
  if x ∈ l then l else l ++ [x]

/-- The `for (from, to, token, amount) in transfers_to_process` loop.  Applies
each transfer in sequence and accumulates the `ids : token → users` map.
On failure the transfers already applied remain in the returned balances
(the source errors out of `execute_order` through `?` at that point). -/
def applyTransfers (b : Balances) (ids : List (String × List String)) :
    List (String × String × String × Nat) →
    Except String Unit × Balances × List (String × List String)
  | [] => (.ok (), b, ids)
  | (src, dst, token, amount) :: rest =>
    match transferTokens b src dst token amount with
    | .error e => (.error e, b, ids)
    | .ok b2 =>
      let us := (lookupA ids token).getD []
      applyTransfers b2 (insertA ids token (setAdd (setAdd us src) dst)) rest

/-- The aggregated `BalanceUpdated` events: one per `(token, user)` pair of
`ids`, carrying the final balance.  Every user/token in `ids` was an endpoint
of a successful transfer, so the source's `get_balance` performs no lazy
insertion here and is modelled as the pure read `getBal`. -/
def aggregateEvents (ids : List (String × List String)) (b : Balances) :
    List OrderbookEvent :=
  ids.flatMap (fun p => p.2.map (fun u => .BalanceUpdated u p.1 (getBal b u p.1)))

/-- Everything `Orderbook::execute_order` does before the final aggregated
`BalanceUpdated` emission.  Returns the events emitted so far, plus
`some ids` when the run reaches the aggregation loop (`none` on the
early-return rest path that has no opposite queue entry). -/
def executeOrderCore (ob0 : Orderbook) (order : Order) (ctx : TxContext) :
    Except String (List OrderbookEvent × Option (List (String × List String))) ×
      Orderbook :=
  let user := order.owner
  let requiredToken := match order.order_type with
    | .Buy => order.pair.2
    | .Sell => order.pair.1
  let requiredAmount : Option Nat := match order.order_type with
    | .Buy => order.price.map (fun p => order.quantity * p)
    | .Sell => some order.quantity
  let b0 := ensureBal ob0.balances user requiredToken
  let userBalance := getBal b0 user requiredToken
  let ld0 := ensureBal ob0.latest_deposit user requiredToken
  let latestDep := getBal ld0 user requiredToken
  let ob := { ob0 with balances := b0, latest_deposit := ld0 }
  if ctx.block_height < latestDep + 5 then
    (.error ("User " ++ user ++
      " tried to execute an order too soon after the last deposit block height"), ob)
  else if (match requiredAmount with
    | some amt => decide (userBalance < amt)
    | none => false) then
    (.error ("Insufficient balance for order of user " ++ user), ob)
  else
    match order.order_type with
    | .Buy =>
      match lookupA ob.sell_orders order.pair with
      | none =>
        match order.price with
        | some p =>
          let orders2 := insertA ob.orders order.order_id order
          let q := (lookupA ob.buy_orders order.pair).getD []
          let bq := insertA ob.buy_orders order.pair (q ++ [order.order_id])
          let obA := { ob with orders := orders2, buy_orders := bq }
          let orderbookBal := getBal obA.balances "orderbook" requiredToken
          let obB := { obA with
            balances := ensureBal obA.balances "orderbook" requiredToken }
          let events := [.OrderCreated order,
            .BalanceUpdated user requiredToken
              (userBalance - order.quantity * p),
            .BalanceUpdated "orderbook" requiredToken
              (orderbookBal + order.quantity * p)]
          match transferTokens obB.balances user "orderbook" requiredToken
              (order.quantity * p) with
          | .error e => (.error e, obB)
          | .ok b2 => (.ok (events, none), { obB with balances := b2 })
        | none =>
          (.error ("No matching sell orders for market order " ++ order.order_id), ob)
      | some queue =>
        match matchLoopBuy user order
            { orders := ob.orders, histMap := ob.orders_history, transfers := [],
              events := [], residual := none } queue with
        | .error e => (.error e, ob)
        | .ok (st, q2) =>
          let ob1 := { ob with
            orders := st.orders
            orders_history := st.histMap
            sell_orders := insertA ob.sell_orders order.pair q2 }
          match st.residual with
          | some r =>
            if r.price.isSome then
              match insertOrder ob1 r with
              | .error e => (.error e, ob1)
              | .ok ob2 =>
                let amt := match r.order_type with
                  | .Buy => r.quantity * r.price.getD 0
                  | .Sell => r.quantity
                let tr2 := st.transfers ++ [(user, "orderbook", requiredToken, amt)]
                let (res, b2, ids) := applyTransfers ob2.balances [] tr2
                match res with
                | .error e => (.error e, { ob2 with balances := b2 })
                | .ok _ =>
                  (.ok (st.events ++ [.OrderCreated r], some ids),
                   { ob2 with balances := b2 })
            else
              let (res, b2, ids) := applyTransfers ob1.balances [] st.transfers
              match res with
              | .error e => (.error e, { ob1 with balances := b2 })
              | .ok _ => (.ok (st.events, some ids), { ob1 with balances := b2 })
          | none =>
            let (res, b2, ids) := applyTransfers ob1.balances [] st.transfers
            match res with
            | .error e => (.error e, { ob1 with balances := b2 })
            | .ok _ => (.ok (st.events, some ids), { ob1 with balances := b2 })
    | .Sell =>
      match lookupA ob.buy_orders order.pair with
      | none =>
        match order.price with
        | some _ =>
          let orders2 := insertA ob.orders order.order_id order
          let q := (lookupA ob.sell_orders order.pair).getD []
          let sq := insertA ob.sell_orders order.pair (q ++ [order.order_id])
          let obA := { ob with orders := orders2, sell_orders := sq }
          let orderbookBal := getBal obA.balances "orderbook" requiredToken
          let obB := { obA with
            balances := ensureBal obA.balances "orderbook" requiredToken }
          let events := [.OrderCreated order,
            .BalanceUpdated user requiredToken (userBalance - order.quantity),
            .BalanceUpdated "orderbook" requiredToken
              (orderbookBal + order.quantity)]
          match transferTokens obB.balances user "orderbook" requiredToken
              order.quantity with
          | .error e => (.error e, obB)
          | .ok b2 => (.ok (events, none), { obB with balances := b2 })
        | none =>
          (.error ("No matching buy orders for market order " ++ order.order_id), ob)
      | some queue =>
        match matchLoopSell user order
            { orders := ob.orders, histMap := ob.orders_history, transfers := [],
              events := [], residual := none } queue with
        | .error e => (.error e, ob)
        | .ok (st, q2) =>
          let ob1 := { ob with
            orders := st.orders
            orders_history := st.histMap
            buy_orders := insertA ob.buy_orders order.pair q2 }
          match st.residual with
          | some r =>
            if r.price.isSome then
              match insertOrder ob1 r with
              | .error e => (.error e, ob1)
              | .ok ob2 =>
                let amt := match r.order_type with
                  | .Buy => r.quantity * r.price.getD 0
                  | .Sell => r.quantity
                let tr2 := st.transfers ++ [(user, "orderbook", requiredToken, amt)]
                let (res, b2, ids) := applyTransfers ob2.balances [] tr2
                match res with
                | .error e => (.error e, { ob2 with balances := b2 })
                | .ok _ =>
                  (.ok (st.events ++ [.OrderCreated r], some ids),
                   { ob2 with balances := b2 })
            else
              let (res, b2, ids) := applyTransfers ob1.balances [] st.transfers
              match res with
              | .error e => (.error e, { ob1 with balances := b2 })
              | .ok _ => (.ok (st.events, some ids), { ob1 with balances := b2 })
          | none =>
            let (res, b2, ids) := applyTransfers ob1.balances [] st.transfers
            match res with
            | .error e => (.error e, { ob1 with balances := b2 })
            | .ok _ => (.ok (st.events, some ids), { ob1 with balances := b2 })

/-- `Orderbook::execute_order`, parameterized by the iteration order `perm` in
which the aggregation loop `for (token, users) in ids` visits the HashMap of
touched `(token, user)` pairs (Rust's `HashMap`/`HashSet` iteration order is
arbitrary).  `perm` is meaningful only when it permutes its argument. -/
def executeOrderWith
    (perm : List (String × List String) → List (String × List String))
    (ob : Orderbook) (order : Order) (ctx : TxContext) :
    Except String (List OrderbookEvent) × Orderbook :=
  match executeOrderCore ob order ctx with
  | (.error e, ob2) => (.error e, ob2)
  | (.ok (evs, none), ob2) => (.ok evs, ob2)
  | (.ok (evs, some ids), ob2) =>
    (.ok (evs ++ aggregateEvents (perm ids) ob2.balances), ob2)

/-- `Orderbook::execute_order` with the canonical (first-touch) iteration
order. -/
def executeOrder (ob : Orderbook) (order : Order) (ctx : TxContext) :
    Except String (List OrderbookEvent) × Orderbook :=
  executeOrderWith id ob order ctx

/-- `Orderbook::is_blob_whitelisted`. -/
def isBlobWhitelisted (ob : Orderbook) (name : String) : Bool :=
  name ∈ ob.accepted_tokens || name = "orderbook" || name = "wallet" ||
    name = "secp256k1"

/-- `<Orderbook as ZkContract>::execute`, parameterized like
`executeOrderWith`.  The calldata is modelled by its decoded components:
identity, decoded action, optional tx context, the blob contract names and
`tx_blob_count`. -/
def executeWith
    (perm : List (String × List String) → List (String × List String))
    (ob : Orderbook) (identity : String) (action : OrderbookAction)
    (txCtx : Option TxContext) (blobNames : List String) (txBlobCount : Nat) :
    Except String (List OrderbookEvent) × Orderbook :=
  match txCtx with
  | none => (.error "tx_ctx is missing", ob)
  | some ctx =>
    if ctx.lane_id ≠ ob.lane_id then (.error "Invalid lane id", ob)
    else if blobNames.length ≠ txBlobCount then
      (.error "Calldata is not composed with all tx blobs", ob)
    else if blobNames.any (fun n => !(isBlobWhitelisted ob n)) then
      (.error "Blob contract name is not whitelisted", ob)
    else
      match action with
      | .CreateOrder oid ot price pair qty =>
        if (lookupA ob.orders oid).isSome then
          (.error ("Order with id " ++ oid ++ " already exists"), ob)
        else
          executeOrderWith perm ob
            { owner := identity, order_id := oid, order_type := ot, price := price,
              pair := pair, quantity := qty, timestamp := ctx.timestamp } ctx
      | .Cancel oid => cancelOrder ob oid identity
      | .Deposit token amount => deposit ob token amount identity ctx
      | .Withdraw token amount => withdraw ob token amount identity

/-- `<Orderbook as ZkContract>::execute` with the canonical iteration order. -/
def execute (ob : Orderbook) (identity : String) (action : OrderbookAction)
    (txCtx : Option TxContext) (blobNames : List String) (txBlobCount : Nat) :
    Except String (List OrderbookEvent) × Orderbook :=
  executeWith id ob identity action txCtx blobNames txBlobCount

/-- `CandleStick` from indexer.rs (`open` is renamed `openP`: `open` is a Lean
keyword). -/
structure CandleStick where
  timestamp : Nat
  openP : Nat
  high : Nat
  low : Nat
  close : Nat
  volume : Nat
deriving DecidableEq, Repr

/-- One candle from the trades of a bucket, mirroring the body of the
`if !interval_trades.is_empty()` block: `open`/`close` are the FIRST/LAST
prices in the iteration order of the history map (the order of the list
here), `high`/`low`/`volume` are max/min/sum. -/
def mkCandle (ts : Nat) (trades : List (Nat × Nat)) : CandleStick :=
  let prices := trades.map (fun p => p.2)
  { timestamp := ts
    openP := prices.head?.getD 0
    high := prices.max?.getD 0
    low := prices.min?.getD 0
    close := prices.getLast?.getD 0
    volume := prices.sum }

/-- The body of the `while current_time.0 < to.0` loop of
`get_pair_candles`, with the loop's termination measure as an explicit
structural fuel: when `interval > 0` the counter strictly increases by
`interval` per iteration, so `to - from` iterations always suffice and the
fuel never runs out; when `interval = 0` the source loops forever, which this
model cuts off at fuel exhaustion (every theorem below assumes
`0 < interval`). -/
def candlesLoop (hist : List (Nat × Nat)) (toTs interval : Nat) :
    Nat → Nat → List CandleStick
  | 0, _ => []
  | fuel + 1, cur =>
    if cur < toTs then
      let next := cur + interval
      let trades := hist.filter (fun p => decide (cur ≤ p.1) && decide (p.1 < next))
      let rest := candlesLoop hist toTs interval fuel next
      if trades.isEmpty then rest else mkCandle cur trades :: rest
    else []

/-- The `while` loop of `get_pair_candles`, started with enough fuel. -/
def candlesFrom (hist : List (Nat × Nat)) (cur toTs interval : Nat) :
    List CandleStick :=
  candlesLoop hist toTs interval (toTs - cur) cur

/-- `Orderbook::get_pair_candles` (indexer.rs).  The stored list order of
`orders_history[pair]` models the arbitrary `HashMap` iteration order that the
source's `history.iter()` exposes. -/
def getPairCandles (ob : Orderbook) (base quote : String)
    (fromTs toTs interval : Nat) : List CandleStick :=
  candlesFrom ((lookupA ob.orders_history (base, quote)).getD []) fromTs toTs
    interval

/-- The success flag of `sdk::HyleOutput` (the only field
`execute_blob_tx` inspects). -/
structure HyleOut where
  success : Bool
deriving DecidableEq, Repr

/-- A `BlobTransaction`: identity, hash and the ordered contract names of its
blobs (the blob payloads are consumed only through `handleFn`). -/
structure BlobTx where
  identity : String
  tx_hash : String
  blobs : List String
deriving DecidableEq, Repr

/-- The `sdk::Calldata` built for each blob inside `execute_blob_tx`. -/
structure CalldataG where
  identity : String
  tx_hash : String
  blobs : List String
  index : Nat
  tx_ctx : Option TxContext
  tx_blob_count : Nat
deriving DecidableEq, Repr

/-- Step 1 of `execute_blob_tx`: clone every involved contract into a
temporary map. -/
def buildTemp {C : Type} (contracts : List (String × C)) (acc : List (String × C)) :
    List String → List (String × C)
  | [] => acc
  | n :: rest =>
    match lookupA contracts n with
    | some c => buildTemp contracts (insertA acc n c) rest
    | none => buildTemp contracts acc rest

/-- Step 2 of `execute_blob_tx`: execute every blob in sequence against the
temporary map, skipping blobs whose contract is not managed, failing on a
handler error or an unsuccessful `HyleOutput`. -/
def execBlobs {C : Type}
    (handleFn : String → C → CalldataG → Except String (HyleOut × C))
    (btx : BlobTx) (txCtx : Option TxContext) :
    List (Nat × String) → List (String × C) → List (HyleOut × String) →
    Except String (List (HyleOut × String)) × List (String × C)
  | [], temp, outs => (.ok outs, temp)
  | (i, name) :: rest, temp, outs =>
    match lookupA temp name with
    | none => execBlobs handleFn btx txCtx rest temp outs
    | some c =>
      let cd : CalldataG :=
        { identity := btx.identity
          tx_hash := btx.tx_hash
          blobs := btx.blobs
          index := i
          tx_ctx := txCtx
          tx_blob_count := btx.blobs.length }
      match handleFn name c cd with
      | .error e => (.error ("Error while executing tx: " ++ e), temp)
      | .ok (out, c2) =>
        if out.success then
          execBlobs handleFn btx txCtx rest (insertA temp name c2)
            (outs ++ [(out, name)])
        else (.error "Hyle output is not successful", temp)

/-- Step 3 of `execute_blob_tx`: commit the temporary map back into the
caller's map. -/
def commitTemp {C : Type} (contracts : List (String × C)) :
    List (String × C) → List (String × C)
  | [] => contracts
  | p :: rest => commitTemp (insertA contracts p.1 p.2) rest

/-- `RollupExecutor::execute_blob_tx` (rollup_executor.rs), generic over the
contract state type `C` and the per-contract `handle` function (the dynamic
dispatch of `ContractBox`).  Returns the outputs and the caller's map:
unchanged on error, with the temporary clones committed on success. -/
def executeBlobTx {C : Type}
    (handleFn : String → C → CalldataG → Except String (HyleOut × C))
    (contracts : List (String × C)) (btx : BlobTx) (txCtx : Option TxContext) :
    Except String (List (HyleOut × String)) × List (String × C) :=
  let temp := buildTemp contracts [] btx.blobs
  if temp.isEmpty then (.ok [], contracts)
  else
    match execBlobs handleFn btx txCtx btx.blobs.enum temp [] with
    | (.error e, _) => (.error e, contracts)
    | (.ok outs, temp2) => (.ok outs, commitTemp contracts temp2)

/- ### Specification-side definitions

The definitions below are written from the SPEC's words (not from the
source); they are used to compare the source's behaviour against the claims
(invariant I2, invariant P1, candle open/close semantics). -/

/-- Modelled from the spec (I2): the reservation a resting order holds in
token `t`: `quantity * price` of the quote token for a Buy, `quantity` of the
base token for a Sell. -/
def reservedIn (o : Order) (t : String) : Nat :=
  match o.order_type with
  | .Buy => if o.pair.2 = t then o.quantity * o.price.getD 0 else 0
  | .Sell => if o.pair.1 = t then o.quantity else 0

/-- Modelled from the spec (I2): the sum of the reservations of all resting
orders needing token `t`. -/
def sumReservations (ob : Orderbook) (t : String) : Nat :=
  (ob.orders.map (fun p => reservedIn p.2 t)).sum

/-- The price the book associates to a queued order id (0 for a dangling id
or a market order, mirroring the `unwrap_or(0)` of `insert_order`). -/
def priceOfId (ob : Orderbook) (oid : String) : Nat :=
  ((lookupA ob.orders oid).bind (fun o => o.price)).getD 0

/-- The price sequence of the buy queue of `pair`. -/
def buyPrices (ob : Orderbook) (pair : String × String) : List Nat :=
  ((lookupA ob.buy_orders pair).getD []).map (priceOfId ob)

/-- The price sequence of the sell queue of `pair`. -/
def sellPrices (ob : Orderbook) (pair : String × String) : List Nat :=
  ((lookupA ob.sell_orders pair).getD []).map (priceOfId ob)

/-- Modelled from the spec (P1): a price sequence is non-increasing. -/
def nonIncreasingB : List Nat → Bool
  | [] => true
  | [_] => true
  | a :: b :: rest => decide (b ≤ a) && nonIncreasingB (b :: rest)

/-- Modelled from the spec (P1): a price sequence is non-decreasing. -/
def nonDecreasingB : List Nat → Bool
  | [] => true
  | [_] => true
  | a :: b :: rest => decide (a ≤ b) && nonDecreasingB (b :: rest)

/-- Modelled from the spec (§4.3): the trade of a bucket with the smallest
timestamp (ties resolved to the earlier list entry; history keys are
distinct). -/
def earliestTrade : List (Nat × Nat) → Option (Nat × Nat)
  | [] => none
  | t :: rest =>
    match earliestTrade rest with
    | none => some t
    | some u => if t.1 ≤ u.1 then some t else some u

/-- Modelled from the spec (§4.3): the trade of a bucket with the largest
timestamp. -/
def latestTrade : List (Nat × Nat) → Option (Nat × Nat)
  | [] => none
  | t :: rest =>
    match latestTrade rest with
    | none => some t
    | some u => if u.1 ≤ t.1 then some t else some u

/-- `Except` result is an error. -/
def errB {e a : Type} : Except e a → Bool
  | .error _ => true
  | .ok _ => false

instance {e a : Type} [DecidableEq e] [DecidableEq a] : DecidableEq (Except e a) :=
  fun x y =>
    match x, y with
    | .error u, .error v =>
      if h : u = v then isTrue (by rw [h])
      else isFalse (fun hh => by cases hh; exact h rfl)
    | .ok u, .ok v =>
      if h : u = v then isTrue (by rw [h])
      else isFalse (fun hh => by cases hh; exact h rfl)
    | .error _, .ok _ => isFalse (fun hh => by cases hh)
    | .ok _, .error _ => isFalse (fun hh => by cases hh)

/- ### Concrete scenario states used by the evaluation theorems -/

/-- `Orderbook::init`: only the custodial account exists; `oranj` and
`hyllar` are the accepted tokens. -/
def initOrderbook (lane : String) : Orderbook :=
  { lane_id := lane
    balances := [("orderbook", [])]
    latest_deposit := []
    orders := []
    buy_orders := []
    sell_orders := []
    orders_history := []
    accepted_tokens := ["oranj", "hyllar"] }

/-- A transaction context on lane `"L"`. -/
def mkCtx (h ts : Nat) : TxContext :=
  { lane_id := "L", block_height := h, timestamp := ts }

/-- The ETH/USD pair (base, quote). -/
def pairEU : String × String := ("ETH", "USD")

/-- C5 scenario, step 0: deposit 1000 USD for user `u` at block 0. -/
def C5s0 : Orderbook :=
  (execute (initOrderbook "L") "u" (.Deposit "USD" 1000) (some (mkCtx 0 0)) [] 0).2

/-- C5 scenario, step 1: `u` posts a limit Buy at price 10 (block 6).  There
is no `sell_orders` entry for the pair, so the source takes the `push_back`
shortcut. -/
def C5r1 : Except String (List OrderbookEvent) × Orderbook :=
  execute C5s0 "u" (.CreateOrder "b1" .Buy (some 10) pairEU 1) (some (mkCtx 6 1)) [] 0

/-- C5 scenario, step 2: `u` posts a second limit Buy at the HIGHER price 20;
the source again `push_back`s, appending it after the price-10 order. -/
def C5r2 : Except String (List OrderbookEvent) × Orderbook :=
  execute C5r1.2 "u" (.CreateOrder "b2" .Buy (some 20) pairEU 1) (some (mkCtx 6 2)) [] 0

/-- C2/C3 scenario: a resting Buy order `o1` (quantity 2, price 3) whose
reservation `2 * 3 = 6` USD is held by the custodial account. -/
def C2ob : Orderbook :=
  { lane_id := "L"
    balances := [("orderbook", [("USD", 6)]), ("bob", [("USD", 0)])]
    latest_deposit := []
    orders := [("o1",
      { owner := "bob", order_id := "o1", order_type := .Buy, price := some 3,
        pair := pairEU, quantity := 2, timestamp := 0 })]
    buy_orders := [(pairEU, ["o1"])]
    sell_orders := []
    orders_history := []
    accepted_tokens := [] }

/-- C2 scenario result: `bob` cancels `o1`. -/
def C2r : Except String (List OrderbookEvent) × Orderbook :=
  execute C2ob "bob" (.Cancel "o1") (some (mkCtx 6 1)) [] 0

/-- C3 uses the same pre-state as C2 (its own copy). -/
def C3ob : Orderbook := C2ob

/-- C3 scenario result. -/
def C3r : Except String (List OrderbookEvent) × Orderbook :=
  execute C3ob "bob" (.Cancel "o1") (some (mkCtx 6 1)) [] 0

/-- C7 scenario steps: two deposits, a resting sell, a fully matching buy
(which leaves an EMPTY `sell_orders` entry for the pair), then a limit buy
that the source silently drops. -/
def C7s1 : Orderbook :=
  (execute (initOrderbook "L") "alice" (.Deposit "ETH" 1) (some (mkCtx 0 0)) [] 0).2

def C7s2 : Orderbook :=
  (execute C7s1 "bob" (.Deposit "USD" 4000) (some (mkCtx 0 0)) [] 0).2

def C7s3 : Orderbook :=
  (execute C7s2 "alice" (.CreateOrder "s1" .Sell (some 2000) pairEU 1)
    (some (mkCtx 6 1)) [] 0).2

def C7s4 : Orderbook :=
  (execute C7s3 "bob" (.CreateOrder "m1" .Buy (some 2000) pairEU 1)
    (some (mkCtx 6 2)) [] 0).2

/-- C7 final step: a limit buy into the empty-but-present sell queue. -/
def C7r : Except String (List OrderbookEvent) × Orderbook :=
  execute C7s4 "bob" (.CreateOrder "b2" .Buy (some 10) pairEU 1)
    (some (mkCtx 6 3)) [] 0

/-- C6 counterexample (a): same kind of state as C7 (empty `sell_orders`
entry), but the final order is a MARKET buy. -/
def C6s1 : Orderbook :=
  (execute (initOrderbook "L") "alice" (.Deposit "ETH" 1) (some (mkCtx 0 0)) [] 0).2

def C6s2 : Orderbook :=
  (execute C6s1 "bob" (.Deposit "USD" 4000) (some (mkCtx 0 0)) [] 0).2

def C6s3 : Orderbook :=
  (execute C6s2 "alice" (.CreateOrder "s1" .Sell (some 2000) pairEU 1)
    (some (mkCtx 6 1)) [] 0).2

def C6s4 : Orderbook :=
  (execute C6s3 "bob" (.CreateOrder "m1" .Buy (some 2000) pairEU 1)
    (some (mkCtx 6 2)) [] 0).2

/-- C6: the market buy against the empty-but-present sell queue. -/
def C6ra : Except String (List OrderbookEvent) × Orderbook :=
  execute C6s4 "bob" (.CreateOrder "mkt" .Buy none pairEU 1)
    (some (mkCtx 6 3)) [] 0

/-- C6 counterexample (b): a market buy by a user with no balance and no
deposit entry, against a book with NO `sell_orders` entry at all. -/
def C6rb : Except String (List OrderbookEvent) × Orderbook :=
  execute (initOrderbook "L") "ghost" (.CreateOrder "mkt" .Buy none pairEU 1)
    (some (mkCtx 6 1)) [] 0

/-- C1 counterexample (a): a withdrawal by a user with no balances entry. -/
def C1ra : Except String (List OrderbookEvent) × Orderbook :=
  execute (initOrderbook "L") "ghost" (.Withdraw "tok" 1) (some (mkCtx 6 1)) [] 0

/-- C1 counterexample (b) pre-state: a resting sell and a buyer whose quote
balance cannot pay for the match. -/
def C1ob : Orderbook :=
  { lane_id := "L"
    balances := [("orderbook", [("ETH", 1)]), ("alice", [("ETH", 9)]),
                 ("bob", [("USD", 5)])]
    latest_deposit := []
    orders := [("s1",
      { owner := "alice", order_id := "s1", order_type := .Sell,
        price := some 2000, pair := pairEU, quantity := 1, timestamp := 0 })]
    buy_orders := []
    sell_orders := [(pairEU, ["s1"])]
    orders_history := []
    accepted_tokens := [] }

/-- C1 counterexample (b): the market buy fails at settlement time, after the
matching loop has already removed the resting order and recorded the trade. -/
def C1rb : Except String (List OrderbookEvent) × Orderbook :=
  execute C1ob "bob" (.CreateOrder "b1" .Buy none pairEU 1) (some (mkCtx 6 1)) [] 0

/- ### Helper lemmas about the map model -/

theorem lookupA_insertA {k v : Type} [DecidableEq k] (m : List (k × v))
    (key x : k) (val : v) :
    lookupA (insertA m key val) x = if key = x then some val else lookupA m x := by
  induction m with
  | nil => simp [insertA, lookupA]
  | cons p rest ih =>
    obtain ⟨a, b⟩ := p
    by_cases hak : a = key
    · subst hak
      by_cases hax : a = x <;> simp [insertA, lookupA, hax]
    · simp only [insertA, if_neg hak, lookupA]
      by_cases hax : a = x
      · subst hax
        have : ¬ key = a := fun h => hak h.symm
        simp [this]
      · simp [hax, ih]

theorem lookupA_append_none {k v : Type} [DecidableEq k] (l1 l2 : List (k × v))
    (x : k) (h : lookupA l1 x = none) :
    lookupA (l1 ++ l2) x = lookupA l2 x := by
  induction l1 with
  | nil => simp
  | cons p rest ih =>
    obtain ⟨a, b⟩ := p
    by_cases hax : a = x
    · simp [lookupA, hax] at h
    · simp only [lookupA, if_neg hax] at h
      simp [lookupA, if_neg hax, ih h]

theorem getBal_ensureBal (b : Balances) (u t : String) :
    getBal (ensureBal b u t) u t = getBal b u t := by
  unfold getBal ensureBal
  cases hb : lookupA b u with
  | none =>
    simp only [hb, Option.getD_none]
    cases ht : lookupA ([] : List (String × Nat)) t with
    | none => simp [lookupA_insertA, lookupA] at ht ⊢
    | some v => simp [lookupA] at ht
  | some m =>
    simp only [hb, Option.getD_some]
    cases ht : lookupA m t with
    | none =>
      have h2 : lookupA (m ++ [(t, 0)]) t = some 0 := by
        rw [lookupA_append_none m _ t ht]
        simp [lookupA]
      simp [lookupA_insertA, h2, ht]
    | some v => simp [ht, lookupA_insertA]

theorem getBal_zero_of_none (b : Balances) (u t : String)
    (h : (lookupA b u).bind (fun m => lookupA m t) = none) : getBal b u t = 0 := by
  unfold getBal
  cases hb : lookupA b u with
  | none => simp [hb, lookupA]
  | some m =>
    simp only [hb, Option.some_bind] at h
    simp [h]

/-- The token whose balance a new order requires: quote for Buy, base for
Sell (lib.rs, `execute_order`). -/
def requiredTokenOf (ot : OrderType) (pair : String × String) : String :=
  match ot with
  | .Buy => pair.2
  | .Sell => pair.1

/- ### Theorems -/

/-- C10 (confirmed): a user with no `latest_deposit` entry for the required
token gets the defaulted deposit height 0 (`entry(..).or_default()`), so any
`CreateOrder` they submit in a transaction with `block_height < 5` fails the
deposit-quarantine check even though they never deposited. -/
theorem C10_quarantine_trips_on_defaulted_deposit_height
    (ob : Orderbook) (idy oid : String) (ot : OrderType) (price : Option Nat)
    (pair : String × String) (qty : Nat) (ctx : TxContext)
    (blobs : List String) (cnt : Nat)
    (hlane : ctx.lane_id = ob.lane_id) (hcnt : blobs.length = cnt)
    (hwl : blobs.any (fun n => !(isBlobWhitelisted ob n)) = false)
    (hdup : lookupA ob.orders oid = none)
    (hld : (lookupA ob.latest_deposit idy).bind
      (fun m => lookupA m (requiredTokenOf ot pair)) = none)
    (hh : ctx.block_height < 5) :
    getBal ob.latest_deposit idy (requiredTokenOf ot pair) = 0 ∧
    (execute ob idy (.CreateOrder oid ot price pair qty) (some ctx) blobs cnt).1 =
      .error ("User " ++ idy ++
        " tried to execute an order too soon after the last deposit block height") := by
  have hz := getBal_zero_of_none _ _ _ hld
  refine ⟨hz, ?_⟩
  unfold execute executeWith
  simp only [hlane, hcnt, hwl, hdup, Option.isSome_none, Bool.false_eq_true,
    if_false, if_neg, ne_eq, not_true_eq_false, Bool.not_eq_true]
  have hh5 : ctx.block_height < 0 + 5 := by omega
  cases ot with
  | Buy =>
    simp only [requiredTokenOf] at hz
    simp [executeOrderWith, executeOrderCore, getBal_ensureBal, hz, hh5]
  | Sell =>
    simp only [requiredTokenOf] at hz
    simp [executeOrderWith, executeOrderCore, getBal_ensureBal, hz, hh5]

/-- Two `ids` maps are the same up to iteration order: the outer token list
is permuted and each token's user set is permuted. -/
def Perm2 (l1 l2 : List (String × List String)) : Prop :=
  ∃ l3, l1.Perm l3 ∧ List.Forall₂ (fun a b => a.1 = b.1 ∧ a.2.Perm b.2) l3 l2

/-- `f` is a possible `HashMap`/`HashSet` iteration order: it returns a
permutation (outer and inner) of its argument. -/
def ValidIter
    (f : List (String × List String) → List (String × List String)) : Prop :=
  ∀ l, Perm2 (f l) l

theorem forall2_inner_refl (l : List (String × List String)) :
    List.Forall₂ (fun a b => a.1 = b.1 ∧ a.2.Perm b.2) l l := by
  induction l with
  | nil => exact List.Forall₂.nil
  | cons x rest ih => exact List.Forall₂.cons ⟨rfl, List.Perm.refl _⟩ ih

theorem validIter_id : ValidIter id :=
  fun l => ⟨l, List.Perm.refl l, forall2_inner_refl l⟩

theorem validIter_reverse : ValidIter List.reverse :=
  fun l => ⟨l, List.reverse_perm l, forall2_inner_refl l⟩

theorem aggregateEvents_cons (x : String × List String)
    (l : List (String × List String)) (b : Balances) :
    aggregateEvents (x :: l) b =
      x.2.map (fun u => .BalanceUpdated u x.1 (getBal b u x.1)) ++
        aggregateEvents l b := by
  simp [aggregateEvents]

theorem aggregateEvents_forall2 (b : Balances)
    {l1 l2 : List (String × List String)}
    (hf : List.Forall₂ (fun a c => a.1 = c.1 ∧ a.2.Perm c.2) l1 l2) :
    (aggregateEvents l1 b).Perm (aggregateEvents l2 b) := by
  induction hf with
  | nil => exact List.Perm.refl _
  | @cons x y l1t l2t hab hrest ih =>
    rw [aggregateEvents_cons, aggregateEvents_cons, ← hab.1]
    exact List.Perm.append (hab.2.map _) ih

theorem aggregateEvents_perm (b : Balances) {l1 l2 : List (String × List String)}
    (h : Perm2 l1 l2) : (aggregateEvents l1 b).Perm (aggregateEvents l2 b) := by
  obtain ⟨l3, hp, hf⟩ := h
  have h1 : (aggregateEvents l1 b).Perm (aggregateEvents l3 b) := by
    unfold aggregateEvents
    exact hp.flatMap_right _
  exact h1.trans (aggregateEvents_forall2 b hf)

/-- Events results agree up to a permutation of the event list (errors must
agree exactly). -/
def ExceptEvPerm :
    Except String (List OrderbookEvent) → Except String (List OrderbookEvent) →
      Prop
  | .error e1, .error e2 => e1 = e2
  | .ok l1, .ok l2 => l1.Perm l2
  | _, _ => False

theorem exceptEvPerm_refl (x : Except String (List OrderbookEvent)) :
    ExceptEvPerm x x := by
  cases x with
  | error e => simp [ExceptEvPerm]
  | ok l => exact List.Perm.refl l

theorem executeOrderWith_aggregation_perm
    (perm : List (String × List String) → List (String × List String))
    (hp : ValidIter perm) (ob : Orderbook) (order : Order) (ctx : TxContext) :
    (executeOrderWith perm ob order ctx).2 =
      (executeOrderWith id ob order ctx).2 ∧
    ExceptEvPerm (executeOrderWith perm ob order ctx).1
      (executeOrderWith id ob order ctx).1 := by
  unfold executeOrderWith
  rcases hc : executeOrderCore ob order ctx with ⟨res, ob2⟩
  cases res with
  | error e => exact ⟨rfl, by simp [ExceptEvPerm]⟩
  | ok p =>
    obtain ⟨evs, oids⟩ := p
    cases oids with
    | none => exact ⟨rfl, List.Perm.refl evs⟩
    | some ids =>
      refine ⟨rfl, ?_⟩
      simp only [ExceptEvPerm, id]
      exact List.Perm.append_left evs (aggregateEvents_perm ob2.balances (hp ids))

/-- C4 amended (corrected): `execute` is deterministic only up to the
iteration order of the `ids` HashMap driving the aggregated `BalanceUpdated`
emission: for any valid iteration order the post-state and any error are
identical to the canonical run's, and the emitted event list is a PERMUTATION
of the canonical run's; the order of the aggregated block itself is not fixed
(see the counterexample). -/
theorem C4_amended_events_equal_up_to_aggregation_order
    (perm : List (String × List String) → List (String × List String))
    (hp : ValidIter perm) (ob : Orderbook) (idy : String)
    (action : OrderbookAction) (txCtx : Option TxContext)
    (blobs : List String) (cnt : Nat) :
    (executeWith perm ob idy action txCtx blobs cnt).2 =
      (execute ob idy action txCtx blobs cnt).2 ∧
    ExceptEvPerm (executeWith perm ob idy action txCtx blobs cnt).1
      (execute ob idy action txCtx blobs cnt).1 := by
  unfold execute executeWith
  cases txCtx with
  | none => exact ⟨rfl, by simp [ExceptEvPerm]⟩
  | some ctx =>
    by_cases h1 : ctx.lane_id ≠ ob.lane_id
    · simp only [if_pos h1]
      exact ⟨by trivial, exceptEvPerm_refl _⟩
    · simp only [if_neg h1]
      by_cases h2 : blobs.length ≠ cnt
      · simp only [if_pos h2]
        exact ⟨by trivial, exceptEvPerm_refl _⟩
      · simp only [if_neg h2]
        by_cases h3 : blobs.any (fun n => !(isBlobWhitelisted ob n)) = true
        · simp only [if_pos h3]
          exact ⟨by trivial, exceptEvPerm_refl _⟩
        · simp only [if_neg h3]
          cases action with
          | CreateOrder oid ot price pair qty =>
            by_cases h4 : (lookupA ob.orders oid).isSome = true
            · simp only [if_pos h4]
              exact ⟨by trivial, exceptEvPerm_refl _⟩
            · simp only [if_neg h4]
              exact executeOrderWith_aggregation_perm perm hp ob _ ctx
          | Cancel oid => exact ⟨by trivial, exceptEvPerm_refl _⟩
          | Deposit tok amt => exact ⟨by trivial, exceptEvPerm_refl _⟩
          | Withdraw tok amt => exact ⟨by trivial, exceptEvPerm_refl _⟩

/-- C4 counterexample pre-state: a resting sell and a solvent buyer whose
limit buy fully matches it, touching two tokens and three users in the
aggregation map. -/
def C4ob : Orderbook :=
  { lane_id := "L"
    balances := [("orderbook", [("ETH", 1)]), ("alice", [("ETH", 9)]),
                 ("bob", [("USD", 3000)])]
    latest_deposit := []
    orders := [("s1",
      { owner := "alice", order_id := "s1", order_type := .Sell,
        price := some 2000, pair := pairEU, quantity := 1, timestamp := 0 })]
    buy_orders := []
    sell_orders := [(pairEU, ["s1"])]
    orders_history := []
    accepted_tokens := [] }

/-- C4 (counterexample): `List.reverse` is a valid `HashMap` iteration order,
and running `execute` with it on the same state and calldata returns a
DIFFERENT event vector than the canonical run: the aggregated
`BalanceUpdated` events come out in a different order, so two runs are not
byte-identical. -/
theorem C4_counterexample :
    ValidIter List.reverse ∧
    (executeWith List.reverse C4ob "bob"
      (.CreateOrder "b1" .Buy (some 2000) pairEU 1) (some (mkCtx 6 1)) [] 0).1 ≠
    (execute C4ob "bob"
      (.CreateOrder "b1" .Buy (some 2000) pairEU 1) (some (mkCtx 6 1)) [] 0).1 :=
  ⟨validIter_reverse, by decide⟩

/-- C4 amended witness: the amended theorem applied to the counterexample's
input with the reversed iteration order. -/
theorem C4_amended_witness :
    (executeWith List.reverse C4ob "bob"
      (.CreateOrder "b1" .Buy (some 2000) pairEU 1) (some (mkCtx 6 1)) [] 0).2 =
      (execute C4ob "bob"
        (.CreateOrder "b1" .Buy (some 2000) pairEU 1) (some (mkCtx 6 1)) [] 0).2 ∧
    ExceptEvPerm
      (executeWith List.reverse C4ob "bob"
        (.CreateOrder "b1" .Buy (some 2000) pairEU 1) (some (mkCtx 6 1)) [] 0).1
      (execute C4ob "bob"
        (.CreateOrder "b1" .Buy (some 2000) pairEU 1) (some (mkCtx 6 1)) [] 0).1 :=
  C4_amended_events_equal_up_to_aggregation_order List.reverse validIter_reverse
    C4ob "bob" (.CreateOrder "b1" .Buy (some 2000) pairEU 1) (some (mkCtx 6 1))
    [] 0

/-- The structural preconditions of `execute` fail: missing `tx_ctx`, wrong
lane, wrong blob count, or a non-whitelisted blob. -/
def preFailsB (ob : Orderbook) (txCtx : Option TxContext) (blobs : List String)
    (cnt : Nat) : Bool :=
  match txCtx with
  | none => true
  | some ctx =>
    decide (ctx.lane_id ≠ ob.lane_id) || decide (blobs.length ≠ cnt) ||
      blobs.any (fun n => !(isBlobWhitelisted ob n))

theorem execute_of_preFails (ob : Orderbook) (idy : String)
    (action : OrderbookAction) (txCtx : Option TxContext) (blobs : List String)
    (cnt : Nat) (h : preFailsB ob txCtx blobs cnt = true) :
    (execute ob idy action txCtx blobs cnt).2 = ob ∧
    errB (execute ob idy action txCtx blobs cnt).1 = true := by
  cases txCtx with
  | none => simp [execute, executeWith, errB]
  | some ctx =>
    by_cases h1 : ctx.lane_id ≠ ob.lane_id
    · simp [execute, executeWith, h1, errB]
    · by_cases h2 : blobs.length ≠ cnt
      · simp [execute, executeWith, h1, h2, errB]
      · cases h3 : blobs.any (fun n => !(isBlobWhitelisted ob n)) with
        | true => simp [execute, executeWith, h1, h2, h3, errB]
        | false =>
          exfalso
          simp only [preFailsB, h3] at h
          simp [h1, h2] at h

theorem preFails_false_parts (ob : Orderbook) (ctx : TxContext)
    (blobs : List String) (cnt : Nat)
    (h : preFailsB ob (some ctx) blobs cnt = false) :
    ctx.lane_id = ob.lane_id ∧ blobs.length = cnt ∧
    blobs.any (fun n => !(isBlobWhitelisted ob n)) = false := by
  simp only [preFailsB, Bool.or_eq_false_iff, decide_eq_false_iff_not, ne_eq,
    not_not] at h
  obtain ⟨⟨hl, hc⟩, hw⟩ := h
  exact ⟨hl, hc, hw⟩

/-- C1 amended (corrected): on a failing call the state is preserved up to
the lazy zero-valued map entries, for every failure path outside the matching
engine: structural failures leave the state exactly unchanged for every
action; a failing Deposit (impossible past the preamble) and a failing Cancel
leave it exactly unchanged; a failing Withdraw leaves it unchanged except
that the zero-valued balance entry for `(identity, token)` may be created;
a duplicate-id CreateOrder leaves it exactly unchanged.  (CreateOrder
failures inside `execute_order` do NOT preserve the state: see the
counterexample.) -/
theorem C1_amended_error_paths_preserve_state
    (ob : Orderbook) (idy : String) (txCtx : Option TxContext)
    (blobs : List String) (cnt : Nat) :
    (∀ action, preFailsB ob txCtx blobs cnt = true →
      (execute ob idy action txCtx blobs cnt).2 = ob ∧
      errB (execute ob idy action txCtx blobs cnt).1 = true) ∧
    (∀ tok amt,
      errB (execute ob idy (.Deposit tok amt) txCtx blobs cnt).1 = true →
      (execute ob idy (.Deposit tok amt) txCtx blobs cnt).2 = ob) ∧
    (∀ tok amt,
      errB (execute ob idy (.Withdraw tok amt) txCtx blobs cnt).1 = true →
      (execute ob idy (.Withdraw tok amt) txCtx blobs cnt).2 = ob ∨
      (execute ob idy (.Withdraw tok amt) txCtx blobs cnt).2 =
        { ob with balances := ensureBal ob.balances idy tok }) ∧
    (∀ oid, errB (execute ob idy (.Cancel oid) txCtx blobs cnt).1 = true →
      (execute ob idy (.Cancel oid) txCtx blobs cnt).2 = ob) ∧
    (∀ oid ot price pair qty, preFailsB ob txCtx blobs cnt = false →
      (lookupA ob.orders oid).isSome = true →
      (execute ob idy (.CreateOrder oid ot price pair qty) txCtx blobs cnt).2 = ob ∧
      errB (execute ob idy
        (.CreateOrder oid ot price pair qty) txCtx blobs cnt).1 = true) := by
  refine ⟨fun action h => execute_of_preFails ob idy action txCtx blobs cnt h,
    ?_, ?_, ?_, ?_⟩
  · intro tok amt herr
    by_cases hp : preFailsB ob txCtx blobs cnt = true
    · exact (execute_of_preFails ob idy _ txCtx blobs cnt hp).1
    · cases txCtx with
      | none => simp [preFailsB] at hp
      | some ctx =>
        obtain ⟨hl, hc, hw⟩ := preFails_false_parts ob ctx blobs cnt
          (Bool.of_not_eq_true hp)
        simp [execute, executeWith, hl, hc, hw, deposit, errB] at herr
  · intro tok amt herr
    by_cases hp : preFailsB ob txCtx blobs cnt = true
    · exact Or.inl (execute_of_preFails ob idy _ txCtx blobs cnt hp).1
    · cases txCtx with
      | none => simp [preFailsB] at hp
      | some ctx =>
        obtain ⟨hl, hc, hw⟩ := preFails_false_parts ob ctx blobs cnt
          (Bool.of_not_eq_true hp)
        by_cases hba : getBal (ensureBal ob.balances idy tok) idy tok < amt
        · right
          simp [execute, executeWith, hl, hc, hw, withdraw, hba]
        · exfalso
          simp [execute, executeWith, hl, hc, hw, withdraw, hba, errB] at herr
  · intro oid herr
    by_cases hp : preFailsB ob txCtx blobs cnt = true
    · exact (execute_of_preFails ob idy _ txCtx blobs cnt hp).1
    · cases txCtx with
      | none => simp [preFailsB] at hp
      | some ctx =>
        obtain ⟨hl, hc, hw⟩ := preFails_false_parts ob ctx blobs cnt
          (Bool.of_not_eq_true hp)
        simp only [execute, executeWith, hl, hc, hw] at herr ⊢
        rw [if_neg (by simp), if_neg (by simp [hc]), if_neg (by simp [hw])]
          at herr ⊢
        cases hlk : lookupA ob.orders oid with
        | none => simp [cancelOrder, hlk]
        | some order =>
          by_cases how : order.owner ≠ idy
          · simp [cancelOrder, hlk, how]
          · cases htr : transferTokens ob.balances "orderbook" order.owner
              (match order.order_type with
               | .Buy => order.pair.2
               | .Sell => order.pair.1) order.quantity with
            | error e => simp [cancelOrder, hlk, how, htr]
            | ok b2 =>
              exfalso
              simp [cancelOrder, hlk, how, htr, errB] at herr
  · intro oid ot price pair qty hp hdup
    cases txCtx with
    | none => simp [preFailsB] at hp
    | some ctx =>
      obtain ⟨hl, hc, hw⟩ := preFails_false_parts ob ctx blobs cnt hp
      constructor
      · simp [execute, executeWith, hl, hc, hw, hdup]
      · simp [execute, executeWith, hl, hc, hw, hdup, errB]

/-- C1 amended witness: the failing Withdraw of the counterexample satisfies
the amended discipline (the right disjunct: only the lazy zero balance entry
is created). -/
theorem C1_amended_witness :
    (execute (initOrderbook "L") "ghost" (.Withdraw "tok" 1)
      (some (mkCtx 6 1)) [] 0).2 = initOrderbook "L" ∨
    (execute (initOrderbook "L") "ghost" (.Withdraw "tok" 1)
      (some (mkCtx 6 1)) [] 0).2 =
      { initOrderbook "L" with
        balances := ensureBal (initOrderbook "L").balances "ghost" "tok" } :=
  (C1_amended_error_paths_preserve_state (initOrderbook "L") "ghost"
    (some (mkCtx 6 1)) [] 0).2.2.1 "tok" 1 (by decide)

/-- C6 amended (corrected): a market order fails with the no-matching-orders
(`NoLiquidity`) error only when the opposite queue MAP HAS NO ENTRY for the
pair (an empty queue entry makes the call succeed instead), and the state is
unchanged except that the zero-valued lazy `balances` and `latest_deposit`
entries for `(identity, required token)` may be created.  The Buy clause
needs the quarantine to pass; the Sell clause additionally needs the solvency
pre-check to pass. -/
theorem C6_amended_market_order_no_queue_entry
    (ob : Orderbook) (idy oid : String) (pair : String × String) (qty : Nat)
    (ctx : TxContext) (blobs : List String) (cnt : Nat)
    (hlane : ctx.lane_id = ob.lane_id) (hcnt : blobs.length = cnt)
    (hwl : blobs.any (fun n => !(isBlobWhitelisted ob n)) = false)
    (hdup : lookupA ob.orders oid = none) :
    (lookupA ob.sell_orders pair = none →
      5 + getBal ob.latest_deposit idy pair.2 ≤ ctx.block_height →
      execute ob idy (.CreateOrder oid .Buy none pair qty) (some ctx) blobs cnt =
        (.error ("No matching sell orders for market order " ++ oid),
         { ob with
           balances := ensureBal ob.balances idy pair.2
           latest_deposit := ensureBal ob.latest_deposit idy pair.2 })) ∧
    (lookupA ob.buy_orders pair = none →
      5 + getBal ob.latest_deposit idy pair.1 ≤ ctx.block_height →
      qty ≤ getBal ob.balances idy pair.1 →
      execute ob idy (.CreateOrder oid .Sell none pair qty) (some ctx) blobs cnt =
        (.error ("No matching buy orders for market order " ++ oid),
         { ob with
           balances := ensureBal ob.balances idy pair.1
           latest_deposit := ensureBal ob.latest_deposit idy pair.1 })) := by
  constructor
  · intro hq hqr
    unfold execute executeWith
    simp only [hlane, hcnt, hwl, hdup, Option.isSome_none, Bool.false_eq_true,
      if_false, if_neg, ne_eq, not_true_eq_false, Bool.not_eq_true]
    have h1 : ¬ (ctx.block_height < getBal ob.latest_deposit idy pair.2 + 5) := by
      omega
    simp [executeOrderWith, executeOrderCore, getBal_ensureBal, h1, hq]
  · intro hq hqr hsolv
    unfold execute executeWith
    simp only [hlane, hcnt, hwl, hdup, Option.isSome_none, Bool.false_eq_true,
      if_false, if_neg, ne_eq, not_true_eq_false, Bool.not_eq_true]
    have h1 : ¬ (ctx.block_height < getBal ob.latest_deposit idy pair.1 + 5) := by
      omega
    have h2 : ¬ (getBal ob.balances idy pair.1 < qty) := by omega
    simp [executeOrderWith, executeOrderCore, getBal_ensureBal, h1, h2, hq]

/-- C6 amended witness: ghost market Buy on a fresh book (no `sell_orders`
entry): the call fails with the no-matching-orders error and only the lazy
zero entries are created. -/
theorem C6_amended_witness :
    execute (initOrderbook "L") "ghost" (.CreateOrder "mkt" .Buy none pairEU 1)
      (some (mkCtx 6 1)) [] 0 =
      (.error ("No matching sell orders for market order " ++ "mkt"),
       { initOrderbook "L" with
         balances := ensureBal (initOrderbook "L").balances "ghost" pairEU.2
         latest_deposit :=
           ensureBal (initOrderbook "L").latest_deposit "ghost" pairEU.2 }) :=
  (C6_amended_market_order_no_queue_entry (initOrderbook "L") "ghost" "mkt"
    pairEU 1 (mkCtx 6 1) [] 0 (by decide) (by decide) (by decide) (by decide)).1
    (by decide) (by decide)

/-- C10 witness: a ghost user on a fresh book, block height 3. -/
theorem C10_witness :
    getBal (initOrderbook "L").latest_deposit "ghost"
      (requiredTokenOf .Buy pairEU) = 0 ∧
    (execute (initOrderbook "L") "ghost"
      (.CreateOrder "o" .Buy (some 1) pairEU 1) (some (mkCtx 3 0)) [] 0).1 =
      .error ("User " ++ "ghost" ++
        " tried to execute an order too soon after the last deposit block height") :=
  C10_quarantine_trips_on_defaulted_deposit_height (initOrderbook "L") "ghost"
    "o" .Buy (some 1) pairEU 1 (mkCtx 3 0) [] 0 (by decide) (by decide)
    (by decide) (by decide) (by decide) (by decide)

/-- C2 (code_bug): cancelling the resting Buy order `o1` (quantity 2,
price 3) succeeds but transfers only `o1.quantity = 2` USD from the custodial
account back to the owner, not the reserved `o1.quantity * price = 6` USD the
claim states: bob's USD balance goes 0 → 2 and the custodial USD balance goes
6 → 4. -/
theorem C2_cancel_buy_refunds_quantity_not_reservation :
    errB C2r.1 = false ∧
    getBal C2r.2.balances "bob" "USD" = 2 ∧
    getBal C2r.2.balances "orderbook" "USD" = 4 ∧
    reservedIn
      { owner := "bob", order_id := "o1", order_type := .Buy, price := some 3,
        pair := pairEU, quantity := 2, timestamp := 0 } "USD" = 6 ∧
    (2 : Nat) ≠ 6 := by decide

/-- C3 (code_bug): custodial solvency holds before the Cancel
(`balances["orderbook"]["USD"] = 6 =` sum of reservations) but not after: the
Cancel of the Buy order refunds only its quantity, leaving 4 USD in custody
while no resting order reserves anything. -/
theorem C3_custody_equation_broken_by_cancel :
    getBal C3ob.balances "orderbook" "USD" = sumReservations C3ob "USD" ∧
    errB C3r.1 = false ∧
    getBal C3r.2.balances "orderbook" "USD" = 4 ∧
    sumReservations C3r.2 "USD" = 0 ∧
    getBal C3r.2.balances "orderbook" "USD" ≠ sumReservations C3r.2 "USD" := by
  decide

/-- C5 (code_bug): starting from `Orderbook::init`, a deposit and two
successful limit Buys at prices 10 then 20 (the pair has no `sell_orders`
entry, so `execute_order` takes the `push_back` shortcut instead of
`insert_order`) leave the buy queue `["b1", "b2"]` with price sequence
`[10, 20]`: not non-increasing, and the head (price 10) is not the maximum
(20). -/
theorem C5_buy_queue_not_sorted_after_push_back :
    errB C5r1.1 = false ∧ errB C5r2.1 = false ∧
    buyPrices C5r2.2 pairEU = [10, 20] ∧
    nonIncreasingB (buyPrices C5r2.2 pairEU) = false ∧
    ((lookupA C5r2.2.buy_orders pairEU).getD []).head? = some "b1" ∧
    priceOfId C5r2.2 "b1" = 10 ∧
    (buyPrices C5r2.2 pairEU).max?.getD 0 = 20 := by decide

/-- C7 (code_bug): after a full match leaves an EMPTY `sell_orders` entry for
the pair, a limit Buy with full residual quantity is silently dropped: the
call succeeds with NO events, the order is neither stored nor queued, and no
reservation is moved to the custodial account (bob keeps his 2000 USD). -/
theorem C7_residual_limit_order_dropped_on_empty_queue :
    (lookupA C7s4.sell_orders pairEU) = some [] ∧
    C7r.1 = .ok [] ∧
    lookupA C7r.2.orders "b2" = none ∧
    lookupA C7r.2.buy_orders pairEU = none ∧
    getBal C7r.2.balances "bob" "USD" = 2000 ∧
    getBal C7r.2.balances "orderbook" "USD" = 0 := by decide

/-- C6 (counterexample): (a) a market Buy against a pair whose `sell_orders`
entry exists but is EMPTY succeeds (no `NoLiquidity` error at all); (b) a
market Buy against a pair with NO `sell_orders` entry does fail, but the
state is NOT unchanged: zero-valued lazy `balances` and `latest_deposit`
entries are created for the ghost user. -/
theorem C6_counterexample :
    (lookupA C6s4.sell_orders pairEU) = some [] ∧
    C6ra.1 = .ok [] ∧
    errB C6rb.1 = true ∧
    C6rb.2 ≠ initOrderbook "L" ∧
    lookupA C6rb.2.balances "ghost" = some [("USD", 0)] ∧
    lookupA C6rb.2.latest_deposit "ghost" = some [("USD", 0)] := by decide

/-- C1 (counterexample): two failing calls that change the state.  (a) A
Withdraw by a user with no balances entry fails with `Insufficient balance`
yet creates the zero-valued entry `ghost → tok → 0`.  (b) A market Buy whose
settlement transfer fails (buyer cannot pay) errors AFTER the matching loop
mutated the book: the resting order `s1` is gone from `orders` and from the
sell queue and the trade was recorded in `orders_history`. -/
theorem C1_counterexample :
    errB C1ra.1 = true ∧
    C1ra.2 ≠ initOrderbook "L" ∧
    lookupA C1ra.2.balances "ghost" = some [("tok", 0)] ∧
    errB C1rb.1 = true ∧
    C1rb.2 ≠ C1ob ∧
    lookupA C1rb.2.orders "s1" = none ∧
    lookupA C1rb.2.sell_orders pairEU = some [] ∧
    lookupA C1rb.2.orders_history pairEU = some [(1, 2000)] := by decide

/- ### C8: transactional blob execution -/

theorem buildTemp_of_all_none {C : Type} (contracts : List (String × C))
    (names : List String) (acc : List (String × C))
    (h : ∀ n ∈ names, lookupA contracts n = none) :
    buildTemp contracts acc names = acc := by
  induction names generalizing acc with
  | nil => rfl
  | cons n rest ih =>
    have hn : lookupA contracts n = none := h n (List.mem_cons_self n rest)
    simp only [buildTemp, hn]
    exact ih acc (fun m hm => h m (List.mem_cons_of_mem n hm))

theorem lookupA_isSome_buildTemp {C : Type} (contracts : List (String × C))
    (names : List String) (acc : List (String × C)) (x : String)
    (h : (lookupA (buildTemp contracts acc names) x).isSome = true) :
    (lookupA acc x).isSome = true ∨ x ∈ names := by
  induction names generalizing acc with
  | nil => exact Or.inl h
  | cons n rest ih =>
    by_cases hn : n = x
    · exact Or.inr (by simp [hn])
    · simp only [buildTemp] at h
      cases hc : lookupA contracts n with
      | none =>
        rw [hc] at h
        rcases ih acc h with h1 | h1
        · exact Or.inl h1
        · exact Or.inr (List.mem_cons_of_mem n h1)
      | some c =>
        rw [hc] at h
        rcases ih (insertA acc n c) h with h1 | h1
        · rw [lookupA_insertA, if_neg hn] at h1
          exact Or.inl h1
        · exact Or.inr (List.mem_cons_of_mem n h1)

theorem execBlobs_keys_subset {C : Type}
    (handleFn : String → C → CalldataG → Except String (HyleOut × C))
    (btx : BlobTx) (txCtx : Option TxContext)
    (iblobs : List (Nat × String)) (temp : List (String × C))
    (outs outs2 : List (HyleOut × String)) (temp2 : List (String × C))
    (h : execBlobs handleFn btx txCtx iblobs temp outs = (.ok outs2, temp2))
    (x : String) (hx : (lookupA temp2 x).isSome = true) :
    (lookupA temp x).isSome = true := by
  induction iblobs generalizing temp outs with
  | nil =>
    simp only [execBlobs] at h
    cases h
    exact hx
  | cons p rest ih =>
    obtain ⟨i, name⟩ := p
    simp only [execBlobs] at h
    cases ht : lookupA temp name with
    | none =>
      simp only [ht] at h
      exact ih temp outs h
    | some c =>
      simp only [ht] at h
      cases hh : handleFn name c
          { identity := btx.identity, tx_hash := btx.tx_hash,
            blobs := btx.blobs, index := i, tx_ctx := txCtx,
            tx_blob_count := btx.blobs.length } with
      | error e =>
        simp only [hh] at h
        simp at h
      | ok oc =>
        obtain ⟨out, c2⟩ := oc
        simp only [hh] at h
        by_cases hs : out.success = true
        · rw [if_pos hs] at h
          have h3 := ih (insertA temp name c2) (outs ++ [(out, name)]) h
          rw [lookupA_insertA] at h3
          by_cases hnx : name = x
          · rw [← hnx, ht]
            rfl
          · rw [if_neg hnx] at h3
            exact h3
        · rw [if_neg hs] at h
          simp at h

theorem lookupA_none_of_keys_ne {C : Type} (m : List (String × C)) (x : String)
    (h : ∀ p ∈ m, p.1 ≠ x) : lookupA m x = none := by
  induction m with
  | nil => rfl
  | cons p rest ih =>
    have hp : p.1 ≠ x := h p (List.mem_cons_self p rest)
    simp only [lookupA, if_neg hp]
    exact ih (fun q hq => h q (List.mem_cons_of_mem p hq))

theorem keys_ne_of_lookupA_none {C : Type} (m : List (String × C)) (x : String)
    (h : lookupA m x = none) : ∀ p ∈ m, p.1 ≠ x := by
  induction m with
  | nil => intro p hp; cases hp
  | cons q rest ih =>
    obtain ⟨a, b⟩ := q
    intro p hp
    simp only [lookupA] at h
    by_cases hax : a = x
    · rw [if_pos hax] at h
      cases h
    · rw [if_neg hax] at h
      rcases List.mem_cons.mp hp with h1 | h1
      · rw [h1]
        exact hax
      · exact ih h p h1

theorem commitTemp_lookup_of_notkey {C : Type} (contracts : List (String × C))
    (t2 : List (String × C)) (x : String) (h : ∀ p ∈ t2, p.1 ≠ x) :
    lookupA (commitTemp contracts t2) x = lookupA contracts x := by
  induction t2 generalizing contracts with
  | nil => rfl
  | cons p rest ih =>
    simp only [commitTemp]
    rw [ih (insertA contracts p.1 p.2)
      (fun q hq => h q (List.mem_cons_of_mem p hq))]
    rw [lookupA_insertA, if_neg (h p (List.mem_cons_self p rest))]

/-- C8 (confirmed): `execute_blob_tx` is all-or-nothing with respect to the
caller's contracts map: (i) on any failure the caller's map is returned
unchanged; (ii) a transaction none of whose blobs touches a managed contract
is skipped wholesale (`Ok []`, map unchanged), so unmanaged blobs never fail
the transaction; (iii) whatever the outcome, entries of contracts not named
by any blob are never touched. -/
theorem C8_execute_blob_tx_all_or_nothing {C : Type}
    (handleFn : String → C → CalldataG → Except String (HyleOut × C))
    (contracts : List (String × C)) (btx : BlobTx) (txCtx : Option TxContext) :
    (errB (executeBlobTx handleFn contracts btx txCtx).1 = true →
      (executeBlobTx handleFn contracts btx txCtx).2 = contracts) ∧
    ((∀ n ∈ btx.blobs, lookupA contracts n = none) →
      executeBlobTx handleFn contracts btx txCtx = (.ok [], contracts)) ∧
    (∀ x, x ∉ btx.blobs →
      lookupA (executeBlobTx handleFn contracts btx txCtx).2 x =
        lookupA contracts x) := by
  refine ⟨?_, ?_, ?_⟩
  · intro herr
    unfold executeBlobTx at herr ⊢
    by_cases he : (buildTemp contracts [] btx.blobs).isEmpty = true
    · simp [he]
    · simp only [he, Bool.false_eq_true, if_neg, if_false] at herr ⊢
      rcases hx : execBlobs handleFn btx txCtx btx.blobs.enum
          (buildTemp contracts [] btx.blobs) [] with ⟨res, temp2⟩
      cases res with
      | error e => rfl
      | ok outs =>
        rw [hx] at herr
        simp [errB] at herr
  · intro hnone
    unfold executeBlobTx
    rw [buildTemp_of_all_none contracts btx.blobs [] hnone]
    rfl
  · intro x hx
    unfold executeBlobTx
    by_cases he : (buildTemp contracts [] btx.blobs).isEmpty = true
    · simp [he]
    · simp only [he, Bool.false_eq_true, if_neg, if_false]
      rcases hr : execBlobs handleFn btx txCtx btx.blobs.enum
          (buildTemp contracts [] btx.blobs) [] with ⟨res, temp2⟩
      cases res with
      | error e => rfl
      | ok outs =>
        have hkey : lookupA temp2 x = none := by
          cases hk : lookupA temp2 x with
          | none => rfl
          | some c =>
            have h1 : (lookupA temp2 x).isSome = true := by simp [hk]
            have h2 := execBlobs_keys_subset handleFn btx txCtx btx.blobs.enum
              (buildTemp contracts [] btx.blobs) [] outs temp2 hr x h1
            rcases lookupA_isSome_buildTemp contracts btx.blobs [] x h2 with
              h3 | h3
            · simp [lookupA] at h3
            · exact absurd h3 hx
        exact commitTemp_lookup_of_notkey contracts temp2 x
          (keys_ne_of_lookupA_none temp2 x hkey)

/- ### C9: OHLCV candles -/

/-- Modelled from the spec (§4.3): a candle whose `open`/`close` are the
prices of the bucket's EARLIEST/LATEST trades by timestamp (rather than the
first/last in iteration order). -/
def specMkCandle (ts : Nat) (trades : List (Nat × Nat)) : CandleStick :=
  let prices := trades.map (fun p => p.2)
  { timestamp := ts
    openP := ((earliestTrade trades).map (fun p => p.2)).getD 0
    high := prices.max?.getD 0
    low := prices.min?.getD 0
    close := ((latestTrade trades).map (fun p => p.2)).getD 0
    volume := prices.sum }

/-- Modelled from the spec (§4.3): the candle loop with the spec's
earliest/latest `open`/`close` semantics. -/
def specCandlesLoop (hist : List (Nat × Nat)) (toTs interval : Nat) :
    Nat → Nat → List CandleStick
  | 0, _ => []
  | fuel + 1, cur =>
    if cur < toTs then
      let next := cur + interval
      let trades := hist.filter (fun p => decide (cur ≤ p.1) && decide (p.1 < next))
      let rest := specCandlesLoop hist toTs interval fuel next
      if trades.isEmpty then rest else specMkCandle cur trades :: rest
    else []

/-- Modelled from the spec (§4.3): one candle per non-empty bucket of
`[from + k*interval, from + (k+1)*interval)`, empty buckets skipped,
`timestamp` the bucket start, `open`/`close` the earliest/latest trade's
price, `high`/`low` the max/min, `volume` the sum of prices. -/
def specCandlesFrom (hist : List (Nat × Nat)) (cur toTs interval : Nat) :
    List CandleStick :=
  specCandlesLoop hist toTs interval (toTs - cur) cur

theorem getLast?_mem_pairs :
    ∀ (l : List (Nat × Nat)) (w : Nat × Nat), l.getLast? = some w → w ∈ l
  | [], w, h => by cases h
  | [t], w, h => by
    simp only [List.getLast?_singleton, Option.some.injEq] at h
    rw [← h]
    exact List.mem_singleton_self t
  | t :: u :: rest, w, h => by
    rw [List.getLast?_cons_cons] at h
    exact List.mem_cons_of_mem t (getLast?_mem_pairs (u :: rest) w h)

theorem earliestTrade_of_sorted :
    ∀ (l : List (Nat × Nat)),
      List.Pairwise (fun p q => p.1 < q.1) l → earliestTrade l = l.head?
  | [], _ => rfl
  | [t], _ => by simp [earliestTrade]
  | t :: u :: rest, h => by
    have ih := earliestTrade_of_sorted (u :: rest) h.of_cons
    rw [earliestTrade, ih]
    have htu : t.1 < u.1 :=
      (List.pairwise_cons.mp h).1 u (List.mem_cons_self u rest)
    simp only [List.head?_cons]
    rw [if_pos (Nat.le_of_lt htu)]

theorem latestTrade_of_sorted :
    ∀ (l : List (Nat × Nat)),
      List.Pairwise (fun p q => p.1 < q.1) l → latestTrade l = l.getLast?
  | [], _ => rfl
  | [t], _ => by simp [latestTrade]
  | t :: u :: rest, h => by
    have ih := latestTrade_of_sorted (u :: rest) h.of_cons
    rw [latestTrade, ih, List.getLast?_cons_cons]
    rcases hw : (u :: rest).getLast? with _ | w
    · simp [List.getLast?_eq_none_iff] at hw
    · have hmem := getLast?_mem_pairs _ _ hw
      have htw : t.1 < w.1 := (List.pairwise_cons.mp h).1 w hmem
      simp only [hw]
      rw [if_neg (by omega)]

theorem mkCandle_eq_spec (ts : Nat) (trades : List (Nat × Nat))
    (h : List.Pairwise (fun p q => p.1 < q.1) trades) :
    mkCandle ts trades = specMkCandle ts trades := by
  unfold mkCandle specMkCandle
  simp only [CandleStick.mk.injEq]
  refine ⟨by trivial, ?_, by trivial, by trivial, ?_, by trivial⟩
  · rw [earliestTrade_of_sorted trades h, List.head?_map]
  · rw [latestTrade_of_sorted trades h, List.getLast?_map]

theorem candlesLoop_eq_spec (hist : List (Nat × Nat)) (toTs interval : Nat)
    (hs : List.Pairwise (fun p q => p.1 < q.1) hist) :
    ∀ fuel cur, candlesLoop hist toTs interval fuel cur =
      specCandlesLoop hist toTs interval fuel cur := by
  intro fuel
  induction fuel with
  | zero => intro cur; rfl
  | succ n ih =>
    intro cur
    simp only [candlesLoop, specCandlesLoop]
    by_cases hc : cur < toTs
    · rw [if_pos hc, if_pos hc]
      rw [ih (cur + interval)]
      rw [mkCandle_eq_spec cur _ (hs.filter _)]
    · rw [if_neg hc, if_neg hc]

/-- C9 amended (corrected): when the history map's iteration order is
ascending by timestamp, `get_pair_candles` computes exactly the spec's
candles: one candle per non-empty bucket (empty buckets skipped) with
`timestamp` the bucket start, `open`/`close` the earliest/latest trade's
price, `high`/`low` the max/min and `volume` the sum of prices.  In general
the iteration order of the source's `HashMap` is arbitrary and `open`/`close`
are merely the first/last trade in iteration order (see the counterexample);
`high`, `low`, `volume` and the bucketing do not depend on the order. -/
theorem C9_amended_candles_match_spec_on_sorted_history
    (ob : Orderbook) (base quote : String) (fromTs toTs interval : Nat)
    (hi : 0 < interval)
    (hs : List.Pairwise (fun p q => p.1 < q.1)
      ((lookupA ob.orders_history (base, quote)).getD [])) :
    getPairCandles ob base quote fromTs toTs interval =
      specCandlesFrom ((lookupA ob.orders_history (base, quote)).getD [])
        fromTs toTs interval := by
  unfold getPairCandles candlesFrom specCandlesFrom
  exact candlesLoop_eq_spec _ toTs interval hs (toTs - fromTs) fromTs

/-- C9 counterexample pre-state: a history map whose iteration order is
`[(5, 10), (3, 20)]` (Rust's `HashMap` iteration order is arbitrary, so this
order is as possible as the ascending one). -/
def C9ob : Orderbook :=
  { lane_id := "L"
    balances := []
    latest_deposit := []
    orders := []
    buy_orders := []
    sell_orders := []
    orders_history := [(pairEU, [(5, 10), (3, 20)])]
    accepted_tokens := [] }

/-- C9 (counterexample): with bucket `[0, 10)` containing the trades
`(ts 5, price 10)` and `(ts 3, price 20)` iterated in that order, the
returned candle has `open = 10` and `close = 20`, but the bucket's earliest
trade by timestamp is `(3, 20)` (price 20) and its latest is `(5, 10)`
(price 10): `open`/`close` are NOT the earliest/latest trades' prices. -/
theorem C9_counterexample :
    getPairCandles C9ob "ETH" "USD" 0 10 10 =
      [{ timestamp := 0, openP := 10, high := 20, low := 10, close := 20,
         volume := 30 }] ∧
    earliestTrade [(5, 10), (3, 20)] = some (3, 20) ∧
    latestTrade [(5, 10), (3, 20)] = some (5, 10) ∧
    (10 : Nat) ≠ 20 := by decide

/-- C9 amended witness: the same history in ascending iteration order
satisfies the amended claim. -/
theorem C9_amended_witness :
    getPairCandles
      { C9ob with orders_history := [(pairEU, [(3, 20), (5, 10)])] }
      "ETH" "USD" 0 10 10 =
      specCandlesFrom
        ((lookupA { C9ob with
            orders_history := [(pairEU, [(3, 20), (5, 10)])] }.orders_history
          ("ETH", "USD")).getD []) 0 10 10 :=
  C9_amended_candles_match_spec_on_sorted_history
    { C9ob with orders_history := [(pairEU, [(3, 20), (5, 10)])] }
    "ETH" "USD" 0 10 10 (by decide) (by decide)

/-- C8 witness: a one-blob transaction whose handler fails leaves the map
unchanged, and a transaction touching no managed contract is skipped. -/
theorem C8_witness :
    errB (executeBlobTx (fun _ (c : Nat) _ => .error "boom") [("a", 0)]
      { identity := "i", tx_hash := "h", blobs := ["a"] } none).1 = true ∧
    (executeBlobTx (fun _ (c : Nat) _ => .error "boom") [("a", 0)]
      { identity := "i", tx_hash := "h", blobs := ["a"] } none).2 = [("a", 0)] ∧
    executeBlobTx (fun _ (c : Nat) _ => .error "boom") [("a", 0)]
      { identity := "i", tx_hash := "h", blobs := ["b"] } none =
      (.ok [], [("a", 0)]) :=
  ⟨by decide,
   (C8_execute_blob_tx_all_or_nothing (fun _ (c : Nat) _ => .error "boom")
     [("a", 0)] { identity := "i", tx_hash := "h", blobs := ["a"] } none).1
     (by decide),
   (C8_execute_blob_tx_all_or_nothing (fun _ (c : Nat) _ => .error "boom")
     [("a", 0)] { identity := "i", tx_hash := "h", blobs := ["b"] } none).2.1
     (by decide)⟩

end OB
